import Mathlib

/-!
Shallow embedding of the digital_kaleidoscope Flipper application
(`src/main.c`) and verification of its specification.

The program keeps four globals: `app_running : bool`, `dot_threshold :
uint8_t` (the "density", 0–100), `style : uint8_t` (0–6) and `frame :
uint32_t`.  An input callback mutates `style`/`dot_threshold` on short
presses; `render_pattern` increments `frame` and dispatches on `style` to
one of seven generators that draw dots on a 128×64 canvas.

Machine integers are embedded as `ℕ` with explicit `% 256` / `% 2^32`
at the places where the C code performs a narrowing conversion that
could actually wrap.  The canvas is a function `ℤ × ℤ → Bool` (the host
`canvas_draw_dot` silently tolerates out-of-range coordinates, so no
bounds are modelled).  The C `rand()` stream is an arbitrary function
`ℕ → ℕ` giving the successive values returned by `rand()`.
-/

namespace Kaleido

/-- Screen width in pixels (`#define W 128`). -/
def W : ℕ := 128

/-- Screen height in pixels (`#define H 64`). -/
def H : ℕ := 64

/-- The clamp helper `clamp_u8` from `main.c`: clamp `v` into `[lo, hi]`. -/
def clamp_u8 (v lo hi : ℕ) : ℕ :=
  if v < lo then lo else if v > hi then hi else v

/-- The furi input key enumeration (the keys the switch distinguishes). -/
inductive InputKey where
  | up | down | right | left | ok | back
  deriving DecidableEq, Repr

/-- The furi input press-type enumeration; the callback only distinguishes
`short` from everything else. -/
inductive InputType where
  | press | release | short | long | rept
  deriving DecidableEq, Repr

/-- An input event: a key and a press type. -/
structure InputEvent where
  type : InputType
  key : InputKey
  deriving DecidableEq, Repr

/-- The four globals of `main.c` that make up the mutable program state. -/
structure KState where
  app_running : Bool
  dot_threshold : ℕ
  style : ℕ
  frame : ℕ
  deriving DecidableEq, Repr

/-- The initial global state: `app_running = true`, `dot_threshold = 50`,
`style = 0`, `frame = 0`. -/
def initState : KState :=
  { app_running := true, dot_threshold := 50, style := 0, frame := 0 }

/-- The input callback `input_callback` from `main.c`, as a state transformer.  Returns the new
state together with the `do_redraw` flag (whether `view_port_update` is
called).  `style + 1` and `dot_threshold + 10` are reduced `% 256` where the
C code stores an `int` expression back into a `uint8_t`. -/
def input_callback (event : InputEvent) (s : KState) : KState × Bool :=
  if event.type ≠ InputType.short then (s, false)
  else
    match event.key with
    | InputKey.back =>
        ({ s with app_running := false }, false)
    | InputKey.left =>
        ({ s with style := if s.style = 0 then 6 else s.style - 1 }, true)
    | InputKey.right =>
        ({ s with style := if s.style = 6 then 0 else (s.style + 1) % 256 }, true)
    | InputKey.up =>
        ({ s with dot_threshold := clamp_u8 ((s.dot_threshold + 10) % 256) 0 100 }, true)
    | InputKey.down =>
        ({ s with dot_threshold := if s.dot_threshold < 10 then 0 else s.dot_threshold - 10 }, true)
    | _ => (s, false)

/-- Identifiers for the seven generator functions of the pattern library:
`style0` = mirrored random dots, `style1` = concentric arcs, `style2` =
rotated-line star, `style3` = quadrant noise, `style4` = spiral swirl,
`style5` = checkerboard wave, `style6` = sunburst. -/
inductive GenId where
  | style0 | style1 | style2 | style3 | style4 | style5 | style6
  deriving DecidableEq, Repr

/-- The `switch(style)` of `render_pattern`: which generator is invoked for a
given value of the `style` global (`default` falls back to `render_style0`). -/
def dispatch (style : ℕ) : GenId :=
  match style with
  | 0 => GenId.style2
  | 1 => GenId.style1
  | 2 => GenId.style3
  | 3 => GenId.style0
  | 4 => GenId.style4
  | 5 => GenId.style5
  | 6 => GenId.style6
  | _ => GenId.style0

/-- The dispatcher `render_pattern` from `main.c`, restricted to its effect on the global
state: it increments the `uint32_t` counter `frame` (wrapping at `2^32`) and
then invokes the generator selected by `style`.  The returned `GenId` records
which generator was invoked; no other global is touched. -/
def render_pattern (s : KState) : KState × GenId :=
  ({ s with frame := (s.frame + 1) % 2 ^ 32 }, dispatch s.style)

/-- One render invocation, viewed as a step on the global state. -/
def renderStep (s : KState) : KState :=
  (render_pattern s).1

/-- The states reachable from the initial state by any interleaving of input
events and render invocations. -/
inductive Reachable : KState → Prop where
  | init : Reachable initState
  | input (s : KState) (e : InputEvent) : Reachable s → Reachable (input_callback e s).1
  | render (s : KState) : Reachable s → Reachable (renderStep s)

/-- The dispatcher hits the `default` branch for any style value `≥ 7`. -/
theorem dispatch_of_ge_seven (k : ℕ) : dispatch (k + 7) = GenId.style0 := rfl

/-- C1: every reachable state (from `style = 0`, `density = 50`, under any
sequence of input events and render calls) has `style ∈ [0,6]` and
`dot_threshold ∈ [0,100]`. -/
theorem C1_state_invariant (s : KState) (h : Reachable s) :
    s.style ≤ 6 ∧ s.dot_threshold ≤ 100 := by
  induction h with
  | init => exact ⟨by simp [initState], by simp [initState]⟩
  | input s e hr ih =>
      obtain ⟨hs, hd⟩ := ih
      obtain ⟨t, k⟩ := e
      cases t <;> cases k <;>
        simp_all [input_callback, clamp_u8] <;> (try split_ifs) <;> omega
  | render s hr ih =>
      simpa [renderStep, render_pattern] using ih

/-- C1 witness: the invariant instantiated at the initial state. -/
theorem C1_state_invariant_witness :
    initState.style ≤ 6 ∧ initState.dot_threshold ≤ 100 :=
  C1_state_invariant initState Reachable.init

/-- C2: for any state with `style ∈ [0,6]`, a short-press Left sets `style`
to `6` when it is `0` and decrements it otherwise; a short-press Right sets
it to `0` when it is `6` and increments it otherwise; in particular Right
from `6` lands on `0` and Left from `0` lands on `6`. -/
theorem C2_style_transitions (s : KState) (h : s.style ≤ 6) :
    (input_callback ⟨InputType.short, InputKey.left⟩ s).1.style
      = (if s.style = 0 then 6 else s.style - 1)
    ∧ (input_callback ⟨InputType.short, InputKey.right⟩ s).1.style
      = (if s.style = 6 then 0 else s.style + 1)
    ∧ (s.style = 6 →
        (input_callback ⟨InputType.short, InputKey.right⟩ s).1.style = 0)
    ∧ (s.style = 0 →
        (input_callback ⟨InputType.short, InputKey.left⟩ s).1.style = 6) := by
  refine ⟨?_, ?_, ?_, ?_⟩ <;>
    simp [input_callback] <;> (try intro h0) <;> (try split_ifs) <;> intros <;> omega

/-- C2 witness: at the initial state (`style = 0`), a short-press Left lands
on style `6`. -/
theorem C2_style_transitions_witness :
    (input_callback ⟨InputType.short, InputKey.left⟩ initState).1.style = 6 :=
  (C2_style_transitions initState (by decide)).2.2.2 rfl

/-- C3: for any state with `density ∈ [0,100]`, a short-press Up sets the
density to `clamp(density + 10, 0, 100)` and a short-press Down sets it to
`0` when `density < 10` and to `density - 10` otherwise; in particular Up
from `100` stays `100` and Down from `0` stays `0`. -/
theorem C3_density_transitions (s : KState) (h : s.dot_threshold ≤ 100) :
    (input_callback ⟨InputType.short, InputKey.up⟩ s).1.dot_threshold
      = clamp_u8 (s.dot_threshold + 10) 0 100
    ∧ (input_callback ⟨InputType.short, InputKey.down⟩ s).1.dot_threshold
      = (if s.dot_threshold < 10 then 0 else s.dot_threshold - 10)
    ∧ (s.dot_threshold = 100 →
        (input_callback ⟨InputType.short, InputKey.up⟩ s).1.dot_threshold = 100)
    ∧ (s.dot_threshold = 0 →
        (input_callback ⟨InputType.short, InputKey.down⟩ s).1.dot_threshold = 0) := by
  refine ⟨?_, ?_, ?_, ?_⟩ <;>
    simp [input_callback, clamp_u8] <;> (try intro h0) <;> (try split_ifs) <;> intros <;> omega

/-- C3 witness: Up from density `100` stays at `100`. -/
theorem C3_density_transitions_witness :
    (input_callback ⟨InputType.short, InputKey.up⟩
      { initState with dot_threshold := 100 }).1.dot_threshold = 100 :=
  (C3_density_transitions { initState with dot_threshold := 100 } (by decide)).2.2.1 rfl

/-- C4: every `render_pattern` call increments `frame` by exactly `1`
modulo `2^32` and leaves the other globals alone; the new `frame` value does
not depend on `style` (or any other field); after `n` render invocations
from the initial state, `frame = n % 2^32`. -/
theorem C4_frame_counter :
    (∀ s : KState,
        (render_pattern s).1.frame = (s.frame + 1) % 2 ^ 32
        ∧ (render_pattern s).1.style = s.style
        ∧ (render_pattern s).1.dot_threshold = s.dot_threshold
        ∧ (render_pattern s).1.app_running = s.app_running)
    ∧ (∀ s t : KState,
        (render_pattern { s with frame := t.frame }).1.frame
          = (render_pattern t).1.frame)
    ∧ (∀ n : ℕ, (renderStep^[n] initState).frame = n % 2 ^ 32) := by
  refine ⟨fun s => ⟨rfl, rfl, rfl, rfl⟩, fun s t => rfl, fun n => ?_⟩
  induction n with
  | zero => rfl
  | succ n ih =>
      rw [Function.iterate_succ_apply']
      simp only [renderStep, render_pattern, ih]
      omega

/-- C6: the dispatcher maps style `0` to the rotating star (`render_style2`),
`1` to concentric arcs (`render_style1`), `2` to quadrant noise
(`render_style3`), `3` to mirrored random dots (`render_style0`), `4` to the
spiral swirl, `5` to the checkerboard wave, `6` to the sunburst; at the
initial state (`style = 0`) the generator invoked is the rotating star, not
the mirrored-dots generator. -/
theorem C6_dispatch_mapping :
    dispatch 0 = GenId.style2 ∧ dispatch 1 = GenId.style1
    ∧ dispatch 2 = GenId.style3 ∧ dispatch 3 = GenId.style0
    ∧ dispatch 4 = GenId.style4 ∧ dispatch 5 = GenId.style5
    ∧ dispatch 6 = GenId.style6
    ∧ (render_pattern initState).2 = GenId.style2
    ∧ (render_pattern initState).2 ≠ GenId.style0 := by
  decide

/-- C7: for every style value outside `[0,6]`, `render_pattern` dispatches to
the mirrored-dots generator (`render_style0`, the `default` branch) and its
only effect on the globals is the frame increment. -/
theorem C7_out_of_range_fallback (s : KState) (h : 6 < s.style) :
    (render_pattern s).2 = GenId.style0
    ∧ (render_pattern s).1.style = s.style
    ∧ (render_pattern s).1.dot_threshold = s.dot_threshold
    ∧ (render_pattern s).1.app_running = s.app_running
    ∧ (render_pattern s).1.frame = (s.frame + 1) % 2 ^ 32 := by
  refine ⟨?_, rfl, rfl, rfl, rfl⟩
  obtain ⟨k, hk⟩ : ∃ k, s.style = k + 7 := ⟨s.style - 7, by omega⟩
  show dispatch s.style = GenId.style0
  rw [hk]
  exact dispatch_of_ge_seven k

/-- C7 witness: with `style = 9` the dispatcher selects the mirrored-dots
generator. -/
theorem C7_out_of_range_fallback_witness :
    (render_pattern { initState with style := 9 }).2 = GenId.style0 :=
  (C7_out_of_range_fallback { initState with style := 9 } (by decide)).1

/-- C10: an input event whose press type is not a short press is a complete
no-op, whatever its key: the state (including `style`, `dot_threshold` and
`app_running`) is unchanged and no redraw is requested. -/
theorem C10_non_short_press_noop (e : InputEvent) (s : KState)
    (h : e.type ≠ InputType.short) :
    input_callback e s = (s, false) := by
  simp [input_callback, h]

/-- C10 witness: a long press of Back changes nothing and requests no
redraw. -/
theorem C10_non_short_press_noop_witness :
    input_callback ⟨InputType.long, InputKey.back⟩ initState = (initState, false) :=
  C10_non_short_press_noop ⟨InputType.long, InputKey.back⟩ initState (by decide)

/-! ### The drawing surface

The host `Canvas` is a monochrome pixel grid; the generators only ever call
`canvas_clear` and `canvas_draw_dot`, and out-of-range coordinates are
tolerated by the host, so the canvas is embedded as a total function
`ℤ × ℤ → Bool` (`true` = pixel lit). -/

/-- A monochrome canvas: which pixels are lit. -/
def Canvas : Type := ℤ × ℤ → Bool

/-- Models `canvas_clear`: every pixel unlit. -/
def canvas_clear : Canvas := fun _ => false

/-- Models `canvas_draw_dot canvas x y`: light pixel `(x, y)`. -/
def canvas_draw_dot (c : Canvas) (x y : ℤ) : Canvas :=
  fun p => if p = (x, y) then true else c p

theorem canvas_draw_dot_eq (c : Canvas) (x y : ℤ) (p : ℤ × ℤ) :
    canvas_draw_dot c x y p = true ↔ p = (x, y) ∨ c p = true := by
  unfold canvas_draw_dot
  split_ifs with h <;> simp [h]

/-- Two canvases are equal as booleans once their lit-predicates agree. -/
theorem canvas_eq_of_iff {a b : Bool} (h : a = true ↔ b = true) : a = b := by
  cases a <;> cases b <;> simp_all

/-- Folding a per-index drawing step over a list of indices lights exactly
the union of what each step lights, on top of the initial canvas.  `Q a p`
states that the step for index `a` lights pixel `p`. -/
theorem foldl_canvas_char (F : Canvas → ℕ → Canvas) (Q : ℕ → ℤ × ℤ → Prop)
    (hF : ∀ a c p, F c a p = true ↔ Q a p ∨ c p = true) :
    ∀ (L : List ℕ) (c : Canvas) (p : ℤ × ℤ),
      (L.foldl F c) p = true ↔ (∃ a ∈ L, Q a p) ∨ c p = true := by
  intro L
  induction L with
  | nil => simp
  | cons a L ih =>
      intro c p
      rw [List.foldl_cons, ih (F c a) p, hF a c p]
      simp only [List.mem_cons]
      constructor
      · rintro (⟨b, hb, hQ⟩ | (hQ | hc))
        · exact Or.inl ⟨b, Or.inr hb, hQ⟩
        · exact Or.inl ⟨a, Or.inl rfl, hQ⟩
        · exact Or.inr hc
      · rintro (⟨b, (rfl | hb), hQ⟩ | hc)
        · exact Or.inr (Or.inl hQ)
        · exact Or.inl ⟨b, hb, hQ⟩
        · exact Or.inr (Or.inr hc)

/-! ### `render_style0`: mirrored random dots -/

/-- The body of the inner (`y`) loop of `render_style0`: one `rand()` draw
decides whether to light `(x, y)` and its horizontal mirror
`(W - 1 - x, y)`.  The `rand()` call consumed at column `x`, row `y` is the
`(x * H + y)`-th value of the stream (the loops run `x` outer, `y` inner). -/
def style0_body (rnd : ℕ → ℕ) (dot_threshold x : ℕ) (c : Canvas) (y : ℕ) : Canvas :=
  if rnd (x * H + y) % 100 < dot_threshold then
    canvas_draw_dot (canvas_draw_dot c (x : ℤ) (y : ℤ)) ((W : ℤ) - 1 - (x : ℤ)) (y : ℤ)
  else c

/-- Generator `render_style0` from `main.c`: clear the canvas, then for each `x` in
`[0, W/2)` and `y` in `[0, H)` draw `(x, y)` and `(W - 1 - x, y)` when
`rand() % 100 < dot_threshold`. -/
def render_style0 (rnd : ℕ → ℕ) (dot_threshold : ℕ) : Canvas :=
  (List.range (W / 2)).foldl
    (fun c x => (List.range H).foldl (style0_body rnd dot_threshold x) c)
    canvas_clear

theorem style0_body_char (rnd : ℕ → ℕ) (thr x : ℕ) (c : Canvas) (y : ℕ) (p : ℤ × ℤ) :
    style0_body rnd thr x c y p = true
    ↔ (rnd (x * H + y) % 100 < thr
        ∧ (p = ((x : ℤ), (y : ℤ)) ∨ p = ((W : ℤ) - 1 - (x : ℤ), (y : ℤ))))
      ∨ c p = true := by
  unfold style0_body
  split_ifs with hc
  · rw [canvas_draw_dot_eq, canvas_draw_dot_eq]
    tauto
  · tauto

/-- Which pixels `render_style0` lights: exactly the pairs
`(x, y)`, `(W - 1 - x, y)` for `x < W/2`, `y < H` whose random draw passed
the threshold test. -/
theorem render_style0_char (rnd : ℕ → ℕ) (thr : ℕ) (p : ℤ × ℤ) :
    render_style0 rnd thr p = true
    ↔ ∃ x ∈ List.range (W / 2), ∃ y ∈ List.range H,
        rnd (x * H + y) % 100 < thr
        ∧ (p = ((x : ℤ), (y : ℤ)) ∨ p = ((W : ℤ) - 1 - (x : ℤ), (y : ℤ))) := by
  unfold render_style0
  rw [foldl_canvas_char
        (fun c x => (List.range H).foldl (style0_body rnd thr x) c)
        (fun x p => ∃ y ∈ List.range H,
          rnd (x * H + y) % 100 < thr
          ∧ (p = ((x : ℤ), (y : ℤ)) ∨ p = ((W : ℤ) - 1 - (x : ℤ), (y : ℤ))))
        (fun x c p => foldl_canvas_char (style0_body rnd thr x) _
          (fun y c p => style0_body_char rnd thr x c y p) (List.range H) c p)]
  simp [canvas_clear]

/-- C8: mirror symmetry of the mirrored-dots generator — for every random
stream and density, and every `x ∈ [0, W/2)`, `y ∈ [0, H)`, pixel `(x, y)`
is lit iff pixel `(W - 1 - x, y)` is lit. -/
theorem C8_mirror_symmetry (rnd : ℕ → ℕ) (thr x y : ℕ)
    (hx : x < W / 2) (hy : y < H) :
    render_style0 rnd thr ((x : ℤ), (y : ℤ))
      = render_style0 rnd thr ((W : ℤ) - 1 - (x : ℤ), (y : ℤ)) := by
  apply canvas_eq_of_iff
  rw [render_style0_char, render_style0_char]
  constructor
  · rintro ⟨x', hx', y', hy', hc, hp | hp⟩ <;>
      simp only [List.mem_range, W, H] at * <;>
      rw [Prod.mk.injEq] at hp
    · obtain ⟨h1, h2⟩ := hp
      have hxx : x = x' := by exact_mod_cast h1
      have hyy : y = y' := by exact_mod_cast h2
      subst hxx; subst hyy
      exact ⟨x, by simpa [W] using hx, y, by simpa [H] using hy, hc, Or.inr rfl⟩
    · obtain ⟨h1, h2⟩ := hp
      have : (x : ℤ) ≥ 64 := by omega
      have : x < 64 := hx
      omega
  · rintro ⟨x', hx', y', hy', hc, hp | hp⟩ <;>
      simp only [List.mem_range, W, H] at * <;>
      rw [Prod.mk.injEq] at hp
    · obtain ⟨h1, h2⟩ := hp
      have : (x' : ℤ) < 64 := by exact_mod_cast hx'
      omega
    · obtain ⟨h1, h2⟩ := hp
      have hxx : x = x' := by omega
      have hyy : y = y' := by exact_mod_cast h2
      subst hxx; subst hyy
      exact ⟨x, by simpa [W] using hx, y, by simpa [H] using hy, hc, Or.inl rfl⟩

/-- C8 witness: with the all-zero random stream and density 50, the mirror
relation holds at `x = 3`, `y = 5`. -/
theorem C8_mirror_symmetry_witness :
    render_style0 (fun _ => 0) 50 (((3 : ℕ) : ℤ), ((5 : ℕ) : ℤ))
      = render_style0 (fun _ => 0) 50 ((W : ℤ) - 1 - ((3 : ℕ) : ℤ), ((5 : ℕ) : ℤ)) :=
  C8_mirror_symmetry (fun _ => 0) 50 3 5 (by decide) (by decide)

/-! ### `render_style1`: animated concentric arcs -/

/-- Models `int dx = (int)(xf + 0.5f)` with `xf = sqrtf((float)inside)` from
`render_style1`: the integer nearest to `√m`.  This is exact for the
arguments arising there (`m = r² - dy² ≤ 31² = 961`): IEEE-754 `sqrtf` is
correctly rounded, so the float result is within `2⁻²⁰` of `√m`, while for
`m ≤ 961` the real `√m` is either an exact integer or at distance at least
`1/248 > 2⁻¹⁹` from every integer and half-integer, so truncating
`sqrtf(m) + 0.5f` yields `⌊√m + 1/2⌋ = ⌊(⌊√(4m)⌋ + 1) / 2⌋`. -/
def sqrt_round (m : ℕ) : ℕ := (Nat.sqrt (4 * m) + 1) / 2

/-- The body of the inner `dy` loop of `render_style1` at ring radius `r`:
the loop counter `j ∈ [0, 2r]` stands for `dy = j - r ∈ [-r, r]`; with
`inside = r² - dy²`, the iteration is skipped when `inside < 0` (the C
`continue`) and otherwise lights `(cx - dx, cy + dy)` and
`(cx + dx, cy + dy)` where `dx = (int)(sqrtf(inside) + 0.5f)`,
`cx = W/2`, `cy = H/2`. -/
def style1_body (r : ℕ) (c : Canvas) (j : ℕ) : Canvas :=
  if (r : ℤ) * r - ((j : ℤ) - r) * ((j : ℤ) - r) < 0 then c
  else
    canvas_draw_dot
      (canvas_draw_dot c
        ((W : ℤ) / 2 - (sqrt_round ((r : ℤ) * r - ((j : ℤ) - r) * ((j : ℤ) - r)).toNat : ℤ))
        ((H : ℤ) / 2 + ((j : ℤ) - r)))
      ((W : ℤ) / 2 + (sqrt_round ((r : ℤ) * r - ((j : ℤ) - r) * ((j : ℤ) - r)).toNat : ℤ))
      ((H : ℤ) / 2 + ((j : ℤ) - r))

/-- The ring radii visited by `for(int r = offset; r < cy; r += step)` with
`cy = H/2`: the arithmetic progression from `offset` with stride `step` and
`⌈(H/2 - offset)/step⌉` elements. -/
def ring_radii (offset step : ℕ) : List ℕ :=
  List.range' offset ((H / 2 - offset + step - 1) / step) step

/-- Generator `render_style1` from `main.c`: concentric arcs with ring spacing
`step = clamp_u8(dot_threshold / 10 + 2, 2, 10)` and starting radius
`offset = frame % step`. -/
def render_style1 (frame dot_threshold : ℕ) : Canvas :=
  (ring_radii (frame % clamp_u8 (dot_threshold / 10 + 2) 2 10)
      (clamp_u8 (dot_threshold / 10 + 2) 2 10)).foldl
    (fun c r => (List.range (2 * r + 1)).foldl (style1_body r) c)
    canvas_clear

/-- What one `style1_body` iteration lights at pixel `p`. -/
def style1_dot_cond (r j : ℕ) (p : ℤ × ℤ) : Prop :=
  ¬((r : ℤ) * r - ((j : ℤ) - r) * ((j : ℤ) - r) < 0)
  ∧ (p = ((W : ℤ) / 2 - (sqrt_round ((r : ℤ) * r - ((j : ℤ) - r) * ((j : ℤ) - r)).toNat : ℤ),
          (H : ℤ) / 2 + ((j : ℤ) - r))
    ∨ p = ((W : ℤ) / 2 + (sqrt_round ((r : ℤ) * r - ((j : ℤ) - r) * ((j : ℤ) - r)).toNat : ℤ),
          (H : ℤ) / 2 + ((j : ℤ) - r)))

theorem style1_body_char (r : ℕ) (c : Canvas) (j : ℕ) (p : ℤ × ℤ) :
    style1_body r c j p = true ↔ style1_dot_cond r j p ∨ c p = true := by
  unfold style1_body style1_dot_cond
  split_ifs with h
  · tauto
  · rw [canvas_draw_dot_eq, canvas_draw_dot_eq]
    tauto

/-- Which pixels `render_style1` lights, loop-level view. -/
theorem render_style1_char (frame thr : ℕ) (p : ℤ × ℤ) :
    render_style1 frame thr p = true
    ↔ ∃ r ∈ ring_radii (frame % clamp_u8 (thr / 10 + 2) 2 10)
          (clamp_u8 (thr / 10 + 2) 2 10),
        ∃ j ∈ List.range (2 * r + 1), style1_dot_cond r j p := by
  unfold render_style1
  rw [foldl_canvas_char
        (fun c r => (List.range (2 * r + 1)).foldl (style1_body r) c)
        (fun r p => ∃ j ∈ List.range (2 * r + 1), style1_dot_cond r j p)
        (fun r c p => foldl_canvas_char (style1_body r)
          (fun j p => style1_dot_cond r j p)
          (fun j c p => style1_body_char r c j p) (List.range (2 * r + 1)) c p)]
  simp [canvas_clear]

/-- For a positive stride, `i` is below the C loop's iteration count
`⌈m / s⌉` exactly when the `i`-th visited value is still below the bound. -/
theorem lt_ceil_div_iff (s m i : ℕ) (hs : 0 < s) :
    i < (m + s - 1) / s ↔ s * i < m := by
  rcases Nat.eq_zero_or_pos m with hm | hm
  · subst hm
    have h0 : (s - 1) / s = 0 := Nat.div_eq_of_lt (by omega)
    simp [h0]
  · have h1 : m + s - 1 = (m - 1) + s := by omega
    rw [h1, Nat.add_div_right _ hs, Nat.lt_succ_iff, Nat.le_div_iff_mul_le hs,
      mul_comm, Nat.lt_iff_le_pred hm]

/-- Membership in the ring-radius progression: exactly the values
`offset + k·step` below `H/2`. -/
theorem mem_ring_radii (offset step r : ℕ) (hs : 0 < step) :
    r ∈ ring_radii offset step ↔ (∃ k : ℕ, r = offset + k * step) ∧ r < H / 2 := by
  unfold ring_radii
  rw [List.mem_range']
  constructor
  · rintro ⟨i, hi, rfl⟩
    rw [lt_ceil_div_iff _ _ _ hs] at hi
    refine ⟨⟨i, by ring⟩, ?_⟩
    revert hi
    generalize step * i = t
    simp only [H]
    omega
  · rintro ⟨⟨k, rfl⟩, hlt⟩
    refine ⟨k, ?_, by ring⟩
    rw [lt_ceil_div_iff _ _ _ hs]
    revert hlt
    rw [mul_comm]
    generalize step * k = t
    simp only [H]
    omega

/-- The inner loop's dots at radius `r`, rephrased over `dy ∈ [-r, r]`. -/
theorem style1_dots_iff (r : ℕ) (p : ℤ × ℤ) :
    (∃ j ∈ List.range (2 * r + 1), style1_dot_cond r j p)
    ↔ ∃ dy : ℤ, -(r : ℤ) ≤ dy ∧ dy ≤ (r : ℤ)
        ∧ (p = ((W : ℤ) / 2 - (sqrt_round ((r : ℤ) * r - dy * dy).toNat : ℤ),
                (H : ℤ) / 2 + dy)
          ∨ p = ((W : ℤ) / 2 + (sqrt_round ((r : ℤ) * r - dy * dy).toNat : ℤ),
                (H : ℤ) / 2 + dy)) := by
  constructor
  · rintro ⟨j, hj, hins, hor⟩
    rw [List.mem_range] at hj
    exact ⟨(j : ℤ) - r, by omega, by omega, hor⟩
  · rintro ⟨dy, h1, h2, hor⟩
    refine ⟨(dy + r).toNat, ?_, ?_, ?_⟩
    · rw [List.mem_range]
      omega
    · have h3 : (0 : ℤ) ≤ ((r : ℤ) - dy) * ((r : ℤ) + dy) :=
        mul_nonneg (by omega) (by omega)
      have h4 : ((r : ℤ) - dy) * ((r : ℤ) + dy) = (r : ℤ) * r - dy * dy := by ring
      rw [h4] at h3
      have h5 : (((dy + r).toNat : ℤ) - r) = dy := by omega
      rw [h5]
      linarith
    · have h5 : (((dy + r).toNat : ℤ) - r) = dy := by omega
      rw [h5]
      exact hor

/-- The dot set described by the specification of the concentric-arcs
generator: ring spacing `step = clamp(density/10 + 2, 2, 10)`, starting
radius offset `frame mod step`, ring radii `offset + k·step` below `H/2`,
and for each ring and each `dy ∈ [-r, r]` the two dots
`(cx ± round(√(r² - dy²)), cy + dy)`. -/
def style1_claim_dots (frame dot_threshold : ℕ) (p : ℤ × ℤ) : Prop :=
  ∃ r : ℕ,
    (∃ k : ℕ, r = frame % clamp_u8 (dot_threshold / 10 + 2) 2 10
        + k * clamp_u8 (dot_threshold / 10 + 2) 2 10)
    ∧ r < H / 2
    ∧ ∃ dy : ℤ, -(r : ℤ) ≤ dy ∧ dy ≤ (r : ℤ)
        ∧ (p = ((W : ℤ) / 2 - (sqrt_round ((r : ℤ) * r - dy * dy).toNat : ℤ),
                (H : ℤ) / 2 + dy)
          ∨ p = ((W : ℤ) / 2 + (sqrt_round ((r : ℤ) * r - dy * dy).toNat : ℤ),
                (H : ℤ) / 2 + dy))

/-- The clamp keeps the ring spacing positive. -/
theorem clamp_step_pos (v : ℕ) : 0 < clamp_u8 v 2 10 := by
  unfold clamp_u8
  split_ifs <;> omega

/-- C9: for every frame and density, `render_style1` draws exactly the rings
described by the spec — spacing `clamp(density/10 + 2, 2, 10)` (so density
50 gives 7), starting offset `frame mod step`, and per ring the chord dots
`(cx ± round(√(r² - dy²)), cy + dy)` for `dy ∈ [-r, r]`. -/
theorem C9_concentric_arcs :
    clamp_u8 (50 / 10 + 2) 2 10 = 7
    ∧ ∀ (frame thr : ℕ) (p : ℤ × ℤ),
        render_style1 frame thr p = true ↔ style1_claim_dots frame thr p := by
  refine ⟨by decide, fun frame thr p => ?_⟩
  rw [render_style1_char]
  unfold style1_claim_dots
  constructor
  · rintro ⟨r, hr, hdots⟩
    rw [mem_ring_radii _ _ _ (clamp_step_pos _)] at hr
    exact ⟨r, hr.1, hr.2, (style1_dots_iff r p).mp hdots⟩
  · rintro ⟨r, hk, hlt, hdy⟩
    refine ⟨r, ?_, (style1_dots_iff r p).mpr hdy⟩
    rw [mem_ring_radii _ _ _ (clamp_step_pos _)]
    exact ⟨hk, hlt⟩

end Kaleido
